import Mathlib

/-!
Verification development for the `snippets` Jira status-report generator.

The Go program is shallowly embedded below.  Machine timestamps are modelled
as `Int` nanoseconds since the Unix epoch (Go `time.Time` instants compare by
this value); `time.Now()` is threaded through as an explicit `now : Int`
parameter.  Strings are Lean `String`s; Go byte-wise string comparison agrees
with codepoint-wise comparison on valid UTF-8 data, which is what `String.lt`
implements.  JSON payloads (`map[string]any`) are modelled by an explicit
`JValue` tree with association-list objects.
-/

namespace Snippets

/-! ## Go string helpers (`strings.TrimSpace`, `strings.ToLower`) -/

/-- Whitespace recognised by Go's `unicode.IsSpace` (the Latin-1 range plus
the Unicode space separators). -/
def isGoSpace (c : Char) : Bool :=
  c = ' ' || c = '\t' || c = '\n' || c.toNat = 11 || c.toNat = 12 || c = '\r' ||
  c.toNat = 0x85 || c.toNat = 0xA0 || c.toNat = 0x1680 ||
  (0x2000 ≤ c.toNat && c.toNat ≤ 0x200A) ||
  c.toNat = 0x2028 || c.toNat = 0x2029 || c.toNat = 0x202F ||
  c.toNat = 0x205F || c.toNat = 0x3000

/-- Go `strings.TrimSpace`: drop leading and trailing whitespace. -/
def goTrimSpace (s : String) : String :=
  ⟨((s.data.dropWhile isGoSpace).reverse.dropWhile isGoSpace).reverse⟩

/-- Go `strings.ToLower`, restricted to the ASCII case mapping.  (Go performs
the full Unicode mapping; every status name compared by the program is ASCII,
where the two coincide.) -/
def goToLower (s : String) : String :=
  ⟨s.data.map Char.toLower⟩

/-! ## Proleptic Gregorian calendar (Go `time` package reckoning) -/

/-- Leap-year test used by Go's `time.daysIn`. -/
def isLeapYear (y : Nat) : Bool :=
  y % 4 = 0 && (y % 100 ≠ 0 || y % 400 = 0)

/-- Number of days in month `m` (1..12) of year `y`. -/
def daysInMonth (y m : Nat) : Nat :=
  match m with
  | 1 => 31
  | 2 => if isLeapYear y then 29 else 28
  | 3 => 31
  | 4 => 30
  | 5 => 31
  | 6 => 30
  | 7 => 31
  | 8 => 31
  | 9 => 30
  | 10 => 31
  | 11 => 30
  | 12 => 31
  | _ => 0

/-- Days from the Unix epoch (1970-01-01) to the Gregorian date `y-m-d`
(days-from-civil algorithm, matching Go's `time.Date` day arithmetic). -/
def daysFromCivil (y m d : Nat) : Int :=
  let yi : Int := if m ≤ 2 then (y : Int) - 1 else (y : Int)
  let era : Int := yi.fdiv 400
  let yoe : Int := yi - era * 400
  let mp : Int := ((m : Int) + 9) % 12
  let doy : Int := (153 * mp + 2).fdiv 5 + (d : Int) - 1
  let doe : Int := yoe * 365 + yoe.fdiv 4 - yoe.fdiv 100 + doy
  era * 146097 + doe - 719468

/-- Nanoseconds per second. -/
def nsPerSec : Int := 1000000000

/-- Nanoseconds per day. -/
def nsPerDay : Int := 86400 * nsPerSec

/-! ## Date parsing (`ParseJiraDate` and `time.Parse` layouts)

Each Go layout used by `ParseJiraDate` is embedded as a parser over
`List Char` producing the instant in nanoseconds since the Unix epoch. -/

/-- Numeric value of an ASCII digit. -/
def digitVal (c : Char) : Nat := c.toNat - 48

/-- Read exactly two ASCII digits. -/
def take2 : List Char → Option (Nat × List Char)
  | a :: b :: rest =>
    if a.isDigit && b.isDigit then some (digitVal a * 10 + digitVal b, rest) else none
  | _ => none

/-- Read exactly four ASCII digits. -/
def take4 : List Char → Option (Nat × List Char)
  | a :: b :: c :: d :: rest =>
    if a.isDigit && b.isDigit && c.isDigit && d.isDigit then
      some (((digitVal a * 10 + digitVal b) * 10 + digitVal c) * 10 + digitVal d, rest)
    else none
  | _ => none

/-- Expect one literal character. -/
def expectCh (c : Char) : List Char → Option (List Char)
  | x :: rest => if x = c then some rest else none
  | _ => none

/-- Parse `YYYY-MM-DD` with Go `time.Parse`'s range validation
(month 1..12, day 1..daysIn(month, year)). -/
def parseYMD (cs : List Char) : Option ((Nat × Nat × Nat) × List Char) := do
  let (y, cs) ← take4 cs
  let cs ← expectCh '-' cs
  let (m, cs) ← take2 cs
  let cs ← expectCh '-' cs
  let (d, cs) ← take2 cs
  if 1 ≤ m ∧ m ≤ 12 ∧ 1 ≤ d ∧ d ≤ daysInMonth y m then
    return ((y, m, d), cs)
  else none

/-- Parse `HH:MM:SS` with Go's range validation (hour 0..23, min/sec 0..59). -/
def parseHMS (cs : List Char) : Option ((Nat × Nat × Nat) × List Char) := do
  let (h, cs) ← take2 cs
  let cs ← expectCh ':' cs
  let (mi, cs) ← take2 cs
  let cs ← expectCh ':' cs
  let (s, cs) ← take2 cs
  if h ≤ 23 ∧ mi ≤ 59 ∧ s ≤ 59 then
    return ((h, mi, s), cs)
  else none

/-- Value of a digit run. -/
def digitsToNat (ds : List Char) : Nat :=
  ds.foldl (fun acc c => acc * 10 + digitVal c) 0

/-- Nanoseconds denoted by a fractional-second digit run, truncated to nine
digits exactly as Go's `parseNanoseconds` does. -/
def fracNanos (ds : List Char) : Int :=
  (digitsToNat (ds.take 9) * 10 ^ (9 - min ds.length 9) : Nat)

/-- The layout fraction `.000`: a dot followed by exactly three digits. -/
def parseFrac3 (cs : List Char) : Option (Int × List Char) := do
  let cs ← expectCh '.' cs
  match cs with
  | a :: b :: c :: rest =>
    if a.isDigit && b.isDigit && c.isDigit then
      return (fracNanos [a, b, c], rest)
    else none
  | _ => none

/-- Go `time.Parse`'s lenient fractional second: when the layout carries no
fraction, a `.` or `,` followed by digits after the seconds is consumed
anyway (nanoseconds truncated to nine digits). -/
def parseOptFrac (allowComma : Bool) (cs : List Char) : Option (Int × List Char) :=
  match cs with
  | sep :: c :: rest =>
    if (sep = '.' ∨ (allowComma ∧ sep = ',')) ∧ c.isDigit then
      let p := (c :: rest).span Char.isDigit
      some (fracNanos p.1, p.2)
    else some (0, cs)
  | _ => some (0, cs)

/-- The layout zone `-0700`: a sign and four digits, offset in seconds.
(Go's generic layout parse does not range-check this offset.) -/
def parseNumTZ (cs : List Char) : Option (Int × List Char) :=
  match cs with
  | sgn :: rest =>
    if sgn = '+' ∨ sgn = '-' then do
      let (h, rest) ← take2 rest
      let (m, rest) ← take2 rest
      let off : Int := (h * 3600 + m * 60 : Nat)
      return (if sgn = '-' then -off else off, rest)
    else none
  | [] => none

/-- The RFC 3339 zone: a literal `Z`, or a sign with `HH:MM`
(range-checked, as in Go's `parseRFC3339` fast path). -/
def parseColonTZ (cs : List Char) : Option (Int × List Char) :=
  match cs with
  | 'Z' :: rest => some (0, rest)
  | sgn :: rest =>
    if sgn = '+' ∨ sgn = '-' then do
      let (h, rest) ← take2 rest
      let rest ← expectCh ':' rest
      let (m, rest) ← take2 rest
      if h ≤ 23 ∧ m ≤ 59 then
        let off : Int := (h * 3600 + m * 60 : Nat)
        return (if sgn = '-' then -off else off, rest)
      else none
    else none
  | [] => none

/-- Assemble an instant (nanoseconds since the Unix epoch) from parsed date,
time-of-day, fractional nanoseconds and a zone offset in seconds. -/
def mkInstant (ymd : Nat × Nat × Nat) (hms : Nat × Nat × Nat)
    (frac : Int) (off : Int) : Int :=
  (daysFromCivil ymd.1 ymd.2.1 ymd.2.2 * 86400 +
    ((hms.1 * 3600 + hms.2.1 * 60 + hms.2.2 : Nat) : Int) - off) * nsPerSec + frac

/-- Layout `2006-01-02T15:04:05.000-0700`. -/
def parseLayoutFrac3NumTZ (cs : List Char) : Option Int := do
  let (ymd, cs) ← parseYMD cs
  let cs ← expectCh 'T' cs
  let (hms, cs) ← parseHMS cs
  let (frac, cs) ← parseFrac3 cs
  let (off, cs) ← parseNumTZ cs
  if cs = [] then return mkInstant ymd hms frac off else none

/-- Layout `2006-01-02T15:04:05.000Z` (the `Z` is a literal; the result is
UTC). -/
def parseLayoutFrac3Z (cs : List Char) : Option Int := do
  let (ymd, cs) ← parseYMD cs
  let cs ← expectCh 'T' cs
  let (hms, cs) ← parseHMS cs
  let (frac, cs) ← parseFrac3 cs
  let cs ← expectCh 'Z' cs
  if cs = [] then return mkInstant ymd hms frac 0 else none

/-- Layout `2006-01-02T15:04:05-0700` (with Go's lenient optional fraction
after the seconds). -/
def parseLayoutNumTZ (cs : List Char) : Option Int := do
  let (ymd, cs) ← parseYMD cs
  let cs ← expectCh 'T' cs
  let (hms, cs) ← parseHMS cs
  let (frac, cs) ← parseOptFrac true cs
  let (off, cs) ← parseNumTZ cs
  if cs = [] then return mkInstant ymd hms frac off else none

/-- Layout `2006-01-02T15:04:05Z` (literal `Z`, lenient optional fraction). -/
def parseLayoutZ (cs : List Char) : Option Int := do
  let (ymd, cs) ← parseYMD cs
  let cs ← expectCh 'T' cs
  let (hms, cs) ← parseHMS cs
  let (frac, cs) ← parseOptFrac true cs
  let cs ← expectCh 'Z' cs
  if cs = [] then return mkInstant ymd hms frac 0 else none

/-- Layout `time.RFC3339`: Go's strict fast path — uppercase `T`, optional dot
fraction, then `Z` or `±HH:MM`. -/
def parseRFC3339Full (cs : List Char) : Option Int := do
  let (ymd, cs) ← parseYMD cs
  let cs ← expectCh 'T' cs
  let (hms, cs) ← parseHMS cs
  let (frac, cs) ← parseOptFrac false cs
  let (off, cs) ← parseColonTZ cs
  if cs = [] then return mkInstant ymd hms frac off else none

/-- Layout `2006-01-02` (date only, midnight UTC). -/
def parseDateOnly (cs : List Char) : Option Int := do
  let (ymd, cs) ← parseYMD cs
  if cs = [] then return daysFromCivil ymd.1 ymd.2.1 ymd.2.2 * nsPerDay else none

/-- The regex fix-up in `ParseJiraDate`: `(\d{2})(\d{2})$` → `$1:$2`, i.e.
when the string ends in four ASCII digits, a colon is inserted between the
second and third of them. -/
def regexFixTZ (cs : List Char) : List Char :=
  match cs.reverse with
  | x1 :: x2 :: x3 :: x4 :: rest =>
    if x1.isDigit && x2.isDigit && x3.isDigit && x4.isDigit then
      (x1 :: x2 :: ':' :: x3 :: x4 :: rest).reverse
    else cs
  | _ => cs

/-- Source `ParseJiraDate`: the empty string is rejected, then the six layouts are
tried in order, then the regex fix-up followed by an RFC 3339 parse. -/
def ParseJiraDate (dateStr : String) : Option Int :=
  if dateStr = "" then none
  else
    let cs := dateStr.data
    (parseLayoutFrac3NumTZ cs) <|> (parseLayoutFrac3Z cs) <|>
    (parseLayoutNumTZ cs) <|> (parseLayoutZ cs) <|>
    (parseRFC3339Full cs) <|> (parseDateOnly cs) <|>
    (parseRFC3339Full (regexFixTZ cs))

/-! ## Status tables and classifier -/

/-- Source `statusCategories`: status name to emoji. -/
def statusCategories : List (String × String) :=
  [("done", "🟣"), ("closed", "🟣"), ("resolved", "🟣"),
   ("in progress", "🟢"), ("at risk", "🟡"),
   ("off track", "🔴"), ("blocked", "🔴"),
   ("not started", "⚪"), ("ready for work", "⚪"),
   ("vetting", "⚪"), ("new", "⚪")]

/-- Source `GetStatusEmoji`: table lookup after lower-casing and trimming; unknown
statuses map to the question-mark glyph. -/
def GetStatusEmoji (statusName : String) : String :=
  let status := goToLower (goTrimSpace statusName)
  (statusCategories.lookup status).getD "❓"

/-- Source `statusOrder`: the fixed sort-priority list. -/
def statusOrder : List String :=
  ["done", "closed", "resolved", "in progress", "at risk",
   "off track", "blocked", "not started", "ready for work",
   "vetting", "new"]

/-- Index of a status in `statusOrder` (the `statusPriority` map). -/
def lookupPriority : List String → Nat → String → Option Nat
  | [], _, _ => none
  | s :: rest, i, q => if s = q then some i else lookupPriority rest (i + 1) q

/-- Source `GetStatusPriority`: position in `statusOrder` after normalisation;
unknown statuses get the sentinel 999. -/
def GetStatusPriority (statusName : String) : Nat :=
  (lookupPriority statusOrder 0 (goToLower (goTrimSpace statusName))).getD 999

/-- Go `t.Truncate(24 * time.Hour)` on an instant: remove the nonnegative
remainder modulo one day. -/
def truncDay (t : Int) : Int := t - t % nsPerDay

/-- Source `IsOverdue`: false for `done`/`resolved` and for an absent target date;
a date-only target is compared against `now` truncated to midnight UTC
(strictly after); a timestamp target is compared as full instants.
Unparsable targets fail open to `false`.  `now` is the value of
`time.Now().UTC()`. -/
def IsOverdue (statusName targetEnd : String) (now : Int) : Bool :=
  let status := goToLower (goTrimSpace statusName)
  if status = "done" || status = "resolved" then false
  else if targetEnd = "" || targetEnd = "None" then false
  else if !(targetEnd.data.contains 'T') then
    match parseDateOnly targetEnd.data with
    | none => false
    | some dueDate => decide (truncDay now > dueDate)
  else
    match ParseJiraDate targetEnd with
    | none => false
    | some dueTime => decide (now > dueTime)

/-! ## Data model -/

/-- Source `IssueComment`: URL and creation timestamp of the most recent comment.
The Go zero value (empty strings) stands for "no comment". -/
structure IssueComment where
  Url : String
  Created : String
deriving DecidableEq, Repr

/-- Source `IssueData`: the canonical extracted issue record. -/
structure IssueData where
  Key : String
  URL : String
  Summary : String
  StatusName : String
  Assignee : String
  Priority : String
  Created : String
  Updated : String
  TargetEnd : String
  ParentKey : String
  ParentSummary : String
  ParentURL : String
  Trending : String
  Emoji : String
  Comment : IssueComment
deriving DecidableEq, Repr

/-- Source `ReportConfig`: report options.  The two date filters hold instants
(nanoseconds since the epoch); `none` models a nil pointer. -/
structure ReportConfig where
  Title : String
  ShowChildren : Bool
  Since : Option Int
  NoCommentSince : Option Int
  OutputFile : String
  JSONOutput : Bool
  CSVOutput : Bool
  SlackOutput : Bool
  URLOutput : Bool
  JQLQuery : String
deriving DecidableEq, Repr

/-! ## JSON payloads (`map[string]any`) -/

/-- Generic JSON value, as produced by `encoding/json` into `any`:
numbers are modelled as integers (the only numeric field read, `total`,
is integral). -/
inductive JValue where
  | null : JValue
  | bool (b : Bool) : JValue
  | num (n : Int) : JValue
  | str (s : String) : JValue
  | arr (xs : List JValue) : JValue
  | obj (fields : List (String × JValue)) : JValue

/-- A JSON object (`map[string]any`).  A nil Go map and an empty map are
indistinguishable to the read-only helpers below, so both are `[]`. -/
abbrev JObj := List (String × JValue)

/-- Source `getString`: string value of a key, or `""` when the map is nil, the key
is missing, or the value is not a string. -/
def getString (m : JObj) (key : String) : String :=
  match m.lookup key with
  | some (JValue.str s) => s
  | _ => ""

/-- Source `getInt`: numeric value of a key, or `0`. -/
def getInt (m : JObj) (key : String) : Int :=
  match m.lookup key with
  | some (JValue.num n) => n
  | _ => 0

/-- Source `getMap`: object value of a key, or nil. -/
def getMap (m : JObj) (key : String) : JObj :=
  match m.lookup key with
  | some (JValue.obj o) => o
  | _ => []

/-- Source `getMapList`: list value of a key, keeping only the object items. -/
def getMapList (m : JObj) (key : String) : List JObj :=
  match m.lookup key with
  | some (JValue.arr xs) =>
    xs.filterMap (fun v => match v with | JValue.obj o => some o | _ => none)
  | _ => []

/-! ## Normalizer (`ExtractIssueData`) -/

/-- The status-name computation at the head of `ExtractIssueData`: missing
status name defaults to "Unknown", then lower-case and trim. -/
def extractStatusName (issue : JObj) : String :=
  let statusName0 := getString (getMap (getMap issue "fields") "status") "name"
  goToLower (goTrimSpace (if statusName0 = "" then "Unknown" else statusName0))

/-- The target-end computation of `ExtractIssueData`: read the resolved
custom field when one is configured, else empty. -/
def extractTargetEnd (issue : JObj) (targetEndFieldId : String) : String :=
  if targetEndFieldId ≠ "" then getString (getMap issue "fields") targetEndFieldId else ""

/-- The trending switch of `ExtractIssueData` (before the overdue
override): the done-family maps to "done", the not-started family to
"not started", and any other status to itself. -/
def trendingOfStatus (statusName : String) : String :=
  if statusName = "done" ∨ statusName = "closed" ∨ statusName = "resolved" then "done"
  else if statusName = "not started" ∨ statusName = "ready for work" ∨
      statusName = "vetting" ∨ statusName = "new" then "not started"
  else statusName

/-- Source `ExtractIssueData`: extract one record from a raw issue payload.
`targetEndFieldId` is the value of the global `customFields["Target end"]`
entry (the resolved custom-field ID, `""` when unresolved), and `now` is
the current UTC instant consumed by `IsOverdue`. -/
def ExtractIssueData (issue : JObj) (serverURL parentKey parentSummary : String)
    (targetEndFieldId : String) (now : Int) : IssueData :=
  let fields := getMap issue "fields"
  let issueKey := getString issue "key"
  let statusName := extractStatusName issue
  let assignee0 := getString (getMap fields "assignee") "displayName"
  let assignee := if assignee0 = "" then "N/A" else assignee0
  let priority0 := getString (getMap fields "priority") "name"
  let priority := if priority0 = "" then "None" else priority0
  let created := getString fields "created"
  let updated := getString fields "updated"
  let targetEnd := extractTargetEnd issue targetEndFieldId
  let summary := getString fields "summary"
  let issueURL := serverURL ++ "/browse/" ++ issueKey
  let overdue := IsOverdue statusName targetEnd now
  let emoji := if overdue then "🔴" else GetStatusEmoji statusName
  let trending := if overdue then "overdue" else trendingOfStatus statusName
  let parentKey1 := if parentKey = "" then issueKey else parentKey
  let parentSummary1 := if parentSummary = "" then summary else parentSummary
  let parentURL := if parentKey1 ≠ issueKey then serverURL ++ "/browse/" ++ parentKey1 else issueURL
  { Key := issueKey
    URL := issueURL
    Summary := summary
    StatusName := statusName
    Assignee := assignee
    Priority := priority
    Created := created
    Updated := updated
    TargetEnd := targetEnd
    ParentKey := parentKey1
    ParentSummary := parentSummary1
    ParentURL := parentURL
    Trending := trending
    Emoji := emoji
    Comment := ⟨"", ""⟩ }

/-! ## Filter & sort engine (`filterAndSortIssues`) -/

/-- The per-record filter of `filterAndSortIssues`: the `since` gate drops
records whose `Updated` is empty, `"N/A"`, unparsable, or strictly before
`since`; the `noCommentSince` gate drops records with a parsable comment
timestamp strictly after the cutoff. -/
def keepIssue (cfg : ReportConfig) (issue : IssueData) : Bool :=
  (match cfg.Since with
   | none => true
   | some since =>
     let timestamp := issue.Updated
     if timestamp = "" ∨ timestamp = "N/A" then false
     else
       match ParseJiraDate timestamp with
       | none => false
       | some updateDate => !(decide (updateDate < since))) &&
  (match cfg.NoCommentSince with
   | none => true
   | some cutoff =>
     if issue.Comment.Created ≠ "" then
       match ParseJiraDate issue.Comment.Created with
       | some commentDate => !(decide (commentDate > cutoff))
       | none => true
     else true)

/-- The target-end key with the empty string replaced by the sentinel that
sorts last. -/
def effectiveTargetEnd (i : IssueData) : String :=
  if i.TargetEnd = "" then "9999-99-99" else i.TargetEnd

/-- Lexicographic comparison of character sequences: the first differing
position decides, a proper initial segment sorts first. -/
def charListLT : List Char → List Char → Bool
  | _, [] => false
  | [], _ :: _ => true
  | a :: as, b :: bs => if a < b then true else if b < a then false else charListLT as bs

/-- Go's `<` on strings (byte-wise lexicographic; on valid UTF-8 data the
byte order and the character order coincide). -/
def goStringLT (s t : String) : Bool := charListLT s.toList t.toList

/-- The `sort.Slice` comparison closure: status priority, then target end
(with sentinel), then the raw `Updated` string, then `Summary`. -/
def issueLess (a b : IssueData) : Bool :=
  if GetStatusPriority a.StatusName ≠ GetStatusPriority b.StatusName then
    decide (GetStatusPriority a.StatusName < GetStatusPriority b.StatusName)
  else if effectiveTargetEnd a ≠ effectiveTargetEnd b then
    goStringLT (effectiveTargetEnd a) (effectiveTargetEnd b)
  else if a.Updated ≠ b.Updated then goStringLT a.Updated b.Updated
  else goStringLT a.Summary b.Summary

/-- The non-strict order induced by `issueLess`; a sequence is sorted in the
sense of Go's `sort.Slice` contract exactly when it is pairwise `issueLE`. -/
def issueLE (a b : IssueData) : Bool := !(issueLess b a)

/-- Source `filterAndSortIssues`: filter, then sort.  (`sort.Slice` is embedded as
a deterministic sort satisfying its contract: the output is a permutation of
the filtered input, sorted with respect to the comparison closure.  The
source iterates over pointers and skips nil entries; the embedding works
with a list of values.) -/
def filterAndSortIssues (issues : List IssueData) (cfg : ReportConfig) : List IssueData :=
  (issues.filter (keepIssue cfg)).mergeSort issueLE

/-! ## CSV renderer pieces -/

/-- The CSV separator glyph. -/
def csvSep : String := "🐱"

/-- Go `strings.ReplaceAll(s, quote, quote-quote)`: double every quote. -/
def replaceQuotesL : List Char → List Char
  | [] => []
  | c :: rest => if c = '"' then '"' :: '"' :: replaceQuotesL rest else c :: replaceQuotesL rest

/-- Source `escapeCSVField`: wrap in quotes (with internal quotes doubled) any field
containing the separator, a newline, or a quote.  (`strings.Contains` with a
single-rune needle is character containment.) -/
def escapeCSVField (s : String) : String :=
  if s.data.contains '🐱' || s.data.contains '\n' || s.data.contains '"' then
    "\"" ++ (⟨replaceQuotesL s.data⟩ : String) ++ "\""
  else s

/-! ## Deep-link renderer (`RenderURLReport`) and Go's query escaping -/

/-- UTF-8 bytes of one character (Go `[]byte(string)` encoding). -/
def utf8Bytes (c : Char) : List Nat :=
  if c.toNat < 0x80 then [c.toNat]
  else if c.toNat < 0x800 then [0xC0 + c.toNat / 64, 0x80 + c.toNat % 64]
  else if c.toNat < 0x10000 then
    [0xE0 + c.toNat / 4096, 0x80 + (c.toNat / 64) % 64, 0x80 + c.toNat % 64]
  else
    [0xF0 + c.toNat / 262144, 0x80 + (c.toNat / 4096) % 64,
     0x80 + (c.toNat / 64) % 64, 0x80 + c.toNat % 64]

/-- UTF-8 bytes of a string. -/
def stringToBytes (s : String) : List Nat :=
  s.data.flatMap utf8Bytes

/-- Bytes kept verbatim by Go's `url.QueryEscape`: ASCII alphanumerics and
`-`, `_`, `.`, `~`. -/
def queryUnreserved (b : Nat) : Bool :=
  (48 ≤ b && b ≤ 57) || (65 ≤ b && b ≤ 90) || (97 ≤ b && b ≤ 122) ||
  b = 45 || b = 95 || b = 46 || b = 126

/-- Byte value of the upper-case hex digit for `n < 16`. -/
def hexDigitUpper (n : Nat) : Nat := if n < 10 then 48 + n else 55 + n

/-- Go `url.QueryEscape` at byte level: unreserved bytes copied, space becomes
`+`, every other byte becomes `%XX`. -/
def queryEscapeBytes (bs : List Nat) : List Nat :=
  bs.flatMap fun b =>
    if queryUnreserved b then [b]
    else if b = 32 then [43]
    else [37, hexDigitUpper (b / 16), hexDigitUpper (b % 16)]

/-- Hex-digit test of `url.QueryUnescape` (both cases accepted). -/
def ishexByte (b : Nat) : Bool :=
  (48 ≤ b && b ≤ 57) || (97 ≤ b && b ≤ 102) || (65 ≤ b && b ≤ 70)

/-- Hex-digit value for `url.QueryUnescape`. -/
def unhexByte (b : Nat) : Nat :=
  if 48 ≤ b && b ≤ 57 then b - 48
  else if 97 ≤ b && b ≤ 102 then b - 87
  else if 65 ≤ b && b ≤ 70 then b - 55
  else 0

/-- Go `url.QueryUnescape` at byte level: `%XX` decodes a byte (two hex digits
required), `+` decodes to space, other bytes are copied. -/
def queryUnescapeBytes : List Nat → Option (List Nat)
  | [] => some []
  | b :: rest =>
    if b = 37 then
      match rest with
      | x :: y :: rest2 =>
        if ishexByte x && ishexByte y then
          (queryUnescapeBytes rest2).map (fun t => (unhexByte x * 16 + unhexByte y) :: t)
        else none
      | _ => none
    else if b = 43 then (queryUnescapeBytes rest).map (fun t => 32 :: t)
    else (queryUnescapeBytes rest).map (fun t => b :: t)

/-- Rebuild a string from escaped output bytes (all ASCII). -/
def bytesToASCIIString (bs : List Nat) : String :=
  ⟨bs.map Char.ofNat⟩

/-- Go `url.QueryEscape` on strings. -/
def queryEscape (s : String) : String :=
  bytesToASCIIString (queryEscapeBytes (stringToBytes s))

/-- Go `strings.TrimSuffix`: remove one trailing copy of the suffix when
present (byte suffix in Go, character suffix here; identical for UTF-8). -/
def goTrimSuffix (s suffix : String) : String :=
  if suffix.data.isSuffixOf s.data then
    ⟨s.data.take (s.data.length - suffix.data.length)⟩
  else s

/-- The JQL built by `RenderURLReport` from the filtered keys. -/
def urlJql (keys : List String) : String :=
  "key in (" ++ String.intercalate ", " keys ++ ") order by assignee ASC"

/-- Source `RenderURLReport`: empty string on an empty filtered sequence, else the
base URL with the JQL as the single (escaped) query parameter.
`url.Values{jql: ...}.Encode()` on this one-entry map produces
`jql=` followed by the query-escaped JQL. -/
def RenderURLReport (serverURL : String) (issues : List IssueData)
    (cfg : ReportConfig) : String :=
  let issues := filterAndSortIssues issues cfg
  if issues.length = 0 then ""
  else
    let keys := issues.map (·.Key)
    let jql := urlJql keys
    let base := goTrimSuffix serverURL "/"
    base ++ "/issues/?" ++ ("jql=" ++ queryEscape jql)

/-! ## Pagination (`SearchIssues` from client.go)

The HTTP transport is abstracted as `server : Nat → Nat → Option JObj`,
mapping the `startAt` and `maxResults` request parameters (the JQL and field
list are fixed for the whole loop) to the decoded JSON response, with `none`
as a transport error. -/

/-- The pagination loop of `SearchIssues`.  The two proof arguments record
the loop invariants that make it terminate: the page size stays positive and
the accumulator stays below `maxResults` (both hold whenever the loop
continues, and initially when `maxResults ≥ 1`). -/
def searchLoop (server : Nat → Nat → Option JObj) (maxResults : Nat)
    (allIssues : List JObj) (startAt pageSize : Nat)
    (hp : 0 < pageSize) (ha : allIssues.length < maxResults) : Option (List JObj) :=
  match server startAt pageSize with
  | none => none
  | some response =>
    if h1 : ((allIssues ++ getMapList response "issues").length : Int) ≥ getInt response "total" ∨
        (allIssues ++ getMapList response "issues").length ≥ maxResults then
      some (allIssues ++ getMapList response "issues")
    else if h2 : (getMapList response "issues").length < pageSize then
      some (allIssues ++ getMapList response "issues")
    else
      searchLoop server maxResults (allIssues ++ getMapList response "issues") (startAt + pageSize)
        (min 50 (maxResults - (allIssues ++ getMapList response "issues").length))
        (by simp only [not_or, not_le] at h1; omega)
        (by simp only [not_or, not_le] at h1; omega)
termination_by maxResults - allIssues.length
decreasing_by
  apply Nat.sub_lt_sub_left ha
  have h4 : pageSize ≤ (getMapList response "issues").length := Nat.not_lt.mp h2
  rw [List.length_append]
  omega

/-- Source `SearchIssues`: run the pagination loop from an empty accumulator with
page size `min(50, maxResults)` (`defaultPageSize = 50`), then truncate any
excess to `maxResults`. -/
def SearchIssues (server : Nat → Nat → Option JObj) (maxResults : Nat)
    (h : 1 ≤ maxResults) : Option (List JObj) :=
  match searchLoop server maxResults [] 0 (min 50 maxResults)
      (by omega) (by simpa using h) with
  | none => none
  | some allIssues =>
    some (if maxResults < allIssues.length then allIssues.take maxResults else allIssues)

/-! ## The sort order as a four-key lexicographic key

`specSortKey` follows the specification's words: ascending by status
priority, then target end with the empty string replaced by the maximal
sentinel `"9999-99-99"`, then the raw `updated` string, then the summary. -/

/-- The four-level sort key described by the specification.  String keys
are compared lexicographically over their character sequences. -/
def specSortKey (i : IssueData) :
    Lex (Nat × Lex (List Char × Lex (List Char × List Char))) :=
  toLex (GetStatusPriority i.StatusName,
    toLex ((effectiveTargetEnd i).toList, toLex (i.Updated.toList, i.Summary.toList)))

/-- Function `charListLT` decides the lexicographic order on character lists. -/
theorem charListLT_iff (as bs : List Char) :
    charListLT as bs = true ↔ List.Lex (· < ·) as bs := by
  induction as generalizing bs with
  | nil =>
    cases bs with
    | nil =>
      rw [show charListLT [] [] = false from rfl]
      exact iff_of_false (by simp) (List.Lex.not_nil_right _ _)
    | cons b bs =>
      rw [show charListLT [] (b :: bs) = true from rfl]
      exact iff_of_true rfl List.Lex.nil
  | cons a as ih =>
    cases bs with
    | nil =>
      rw [show charListLT (a :: as) [] = false from rfl]
      exact iff_of_false (by simp) (List.Lex.not_nil_right _ _)
    | cons b bs =>
      unfold charListLT
      rcases lt_trichotomy a b with h | h | h
      · simp only [if_pos h, true_iff]
        exact List.Lex.rel h
      · subst h
        rw [if_neg (lt_irrefl a), if_neg (lt_irrefl a)]
        rw [ih bs]
        constructor
        · exact List.Lex.cons
        · intro hL
          cases hL with
          | cons h => exact h
          | rel h => exact absurd h (lt_irrefl a)
      · rw [if_neg (not_lt_of_gt h), if_pos h]
        refine iff_of_false (by simp) fun hL => ?_
        cases hL with
        | cons hc => exact absurd h (lt_irrefl a)
        | rel hr => exact absurd (lt_trans h hr) (lt_irrefl b)

/-- The list order used by the sort key is the lexicographic relation. -/
theorem list_char_lt_iff (as bs : List Char) :
    as < bs ↔ List.Lex (· < ·) as bs := Iff.rfl

/-- Strings are equal exactly when their character data is. -/
theorem string_data_inj (s t : String) : s.data = t.data ↔ s = t :=
  String.toList_inj

/-- The source comparison closure decides exactly the strict lexicographic
order on the specification's four-key sort key. -/
theorem issueLess_iff (a b : IssueData) :
    issueLess a b = true ↔ specSortKey a < specSortKey b := by
  unfold issueLess specSortKey goStringLT
  rcases eq_or_ne (GetStatusPriority a.StatusName) (GetStatusPriority b.StatusName) with h1 | h1
  · rcases eq_or_ne (effectiveTargetEnd a) (effectiveTargetEnd b) with h2 | h2
    · rcases eq_or_ne a.Updated b.Updated with h3 | h3
      · simp [h1, h2, h3, Prod.Lex.lt_iff, charListLT_iff, list_char_lt_iff,
          string_data_inj]
      · simp [h1, h2, h3, Prod.Lex.lt_iff, charListLT_iff, list_char_lt_iff,
          string_data_inj]
    · simp [h1, h2, Prod.Lex.lt_iff, charListLT_iff, list_char_lt_iff,
        string_data_inj]
  · simp [h1, Prod.Lex.lt_iff, charListLT_iff, list_char_lt_iff, string_data_inj]

/-- The non-strict Go sort relation is the non-strict key order. -/
theorem issueLE_iff (a b : IssueData) :
    issueLE a b = true ↔ specSortKey a ≤ specSortKey b := by
  simp only [issueLE, Bool.not_eq_true']
  constructor
  · intro h0
    by_contra hc
    rw [not_le] at hc
    rw [(issueLess_iff b a).mpr hc] at h0
    simp at h0
  · intro h0
    cases hE : issueLess b a
    · rfl
    · exact absurd h0 (not_le.mpr ((issueLess_iff b a).mp hE))

/-- Transitivity of the sort relation. -/
theorem issueLE_trans (a b c : IssueData) :
    issueLE a b → issueLE b c → issueLE a c := by
  intro hab hbc
  rw [issueLE_iff] at hab hbc ⊢
  exact le_trans hab hbc

/-- Totality of the sort relation. -/
theorem issueLE_total (a b : IssueData) : issueLE a b || issueLE b a := by
  rcases le_total (specSortKey a) (specSortKey b) with h | h
  · simp [(issueLE_iff a b).mpr h]
  · simp [(issueLE_iff b a).mpr h]

/-- C3: for every input and configuration, the output of
`filterAndSortIssues` is ordered ascending by exactly the four keys — status
priority, then `targetEnd` as a string with `""` replaced by the maximal
sentinel `"9999-99-99"`, then the raw `updated` string, then the summary —
with ties falling through in that order, and it is a permutation of the
filtered input. -/
theorem c3_sorted_by_four_keys (issues : List IssueData) (cfg : ReportConfig) :
    (filterAndSortIssues issues cfg).Pairwise
      (fun a b => specSortKey a ≤ specSortKey b) ∧
    (filterAndSortIssues issues cfg).Perm (issues.filter (keepIssue cfg)) := by
  constructor
  · have hs := List.sorted_mergeSort issueLE_trans issueLE_total
      (issues.filter (keepIssue cfg))
    exact hs.imp (fun h => (issueLE_iff _ _).mp h)
  · exact List.mergeSort_perm _ _

/-- C9: applying the filter-and-sort operation twice yields the same output
as applying it once, for every input sequence and configuration. -/
theorem c9_select_idempotent (issues : List IssueData) (cfg : ReportConfig) :
    filterAndSortIssues (filterAndSortIssues issues cfg) cfg =
      filterAndSortIssues issues cfg := by
  unfold filterAndSortIssues
  rw [List.filter_eq_self.mpr
    (fun a ha => (List.mem_filter.mp (List.mem_mergeSort.mp ha)).2)]
  exact List.mergeSort_of_sorted
    (List.sorted_mergeSort issueLE_trans issueLE_total _)

/-! ## Claim C1: relative order of "Done" and "In Progress" -/

/-- Sorting a two-element list with any comparison. -/
theorem mergeSort_pair {α : Type} (le : α → α → Bool) (a b : α) :
    [a, b].mergeSort le = if le a b then [a, b] else [b, a] := by
  rw [List.mergeSort]
  simp [List.splitInTwo, List.splitAt, List.splitAt.go, List.merge]

/-- A configuration with no date filters set. -/
def c1cfg : ReportConfig :=
  { Title := "", ShowChildren := false, Since := none, NoCommentSince := none,
    OutputFile := "", JSONOutput := false, CSVOutput := false, SlackOutput := false,
    URLOutput := false, JQLQuery := "" }

/-- A record with status "Done" and no target end. -/
def c1done : IssueData :=
  { Key := "P-1", URL := "", Summary := "done task", StatusName := "Done",
    Assignee := "", Priority := "", Created := "", Updated := "", TargetEnd := "",
    ParentKey := "", ParentSummary := "", ParentURL := "", Trending := "",
    Emoji := "", Comment := ⟨"", ""⟩ }

/-- A record with status "In Progress" and no target end. -/
def c1inProgress : IssueData :=
  { Key := "P-2", URL := "", Summary := "in progress task", StatusName := "In Progress",
    Assignee := "", Priority := "", Created := "", Updated := "", TargetEnd := "",
    ParentKey := "", ParentSummary := "", ParentURL := "", Trending := "",
    Emoji := "", Comment := ⟨"", ""⟩ }

/-- C1 counterexample: on two records with statuses "Done" and "In Progress"
and no target end, `filterAndSortIssues` places the "Done" record first
("done" has priority index 0, "in progress" index 3, and the sort is
ascending by priority index), not the "In Progress" record as claimed. -/
theorem c1_counterexample :
    filterAndSortIssues [c1inProgress, c1done] c1cfg = [c1done, c1inProgress] ∧
    c1done ≠ c1inProgress := by
  constructor
  · unfold filterAndSortIssues
    have hfilter : [c1inProgress, c1done].filter (keepIssue c1cfg) =
        [c1inProgress, c1done] := by decide
    rw [hfilter, mergeSort_pair]
    decide
  · decide

/-- C1 (amended): for two records with statuses "Done" and "In Progress" and
no target end, the filtered-and-sorted output places the "Done" record first
(as the lower priority index) and the "In Progress" record second. -/
theorem c1_done_first (a b : IssueData)
    (title outputFile jqlQuery : String) (showChildren jf cf sf uf : Bool)
    (ha : a.StatusName = "In Progress") (hb : b.StatusName = "Done")
    (hta : a.TargetEnd = "") (htb : b.TargetEnd = "") :
    filterAndSortIssues [a, b]
      ⟨title, showChildren, none, none, outputFile, jf, cf, sf, uf, jqlQuery⟩ =
      [b, a] := by
  have hless : issueLess b a = true := by
    unfold issueLess
    rw [ha, hb]
    rw [if_pos (show GetStatusPriority "Done" ≠ GetStatusPriority "In Progress" by decide)]
    decide
  have hle : issueLE a b = false := by simp [issueLE, hless]
  unfold filterAndSortIssues
  have hfilter : [a, b].filter
      (keepIssue ⟨title, showChildren, none, none, outputFile, jf, cf, sf, uf, jqlQuery⟩) =
      [a, b] := by
    simp [keepIssue]
  rw [hfilter, mergeSort_pair, hle]
  simp

/-- C1 witness: the amended theorem applied to the two concrete records. -/
theorem c1_witness :
    c1inProgress.StatusName = "In Progress" ∧ c1done.StatusName = "Done" ∧
    c1inProgress.TargetEnd = "" ∧ c1done.TargetEnd = "" ∧
    filterAndSortIssues [c1inProgress, c1done]
      ⟨"", false, none, none, "", false, false, false, false, ""⟩ =
      [c1done, c1inProgress] :=
  ⟨rfl, rfl, rfl, rfl,
    c1_done_first c1inProgress c1done "" "" "" false false false false false
      rfl rfl rfl rfl⟩

/-! ## Claim C2: the done-family and IsOverdue -/

/-- C2 counterexample: "closed" belongs to the done-family (it maps to the
same glyph as "done" in `statusCategories`), but `IsOverdue` does not
short-circuit on it: with target end `2020-01-01` and the clock at
2021-01-01 UTC it returns `true`. -/
theorem c2_counterexample :
    statusCategories.lookup "closed" = some "🟣" ∧
    statusCategories.lookup "done" = some "🟣" ∧
    IsOverdue "closed" "2020-01-01" (daysFromCivil 2021 1 1 * nsPerDay) = true := by
  decide

/-- C2 (amended): for every status that normalises (case-insensitively,
whitespace-trimmed) to "done" or "resolved" — but not "closed" — and for
every target end string and every current instant, `IsOverdue` returns
`false`. -/
theorem c2_done_resolved_never_overdue (statusName targetEnd : String) (now : Int)
    (h : goToLower (goTrimSpace statusName) = "done" ∨
         goToLower (goTrimSpace statusName) = "resolved") :
    IsOverdue statusName targetEnd now = false := by
  unfold IsOverdue
  rcases h with h | h <;> simp [h]

/-- C2 witness: the amended theorem applied to the status "Done " (mixed
case, trailing blank) with a past target date. -/
theorem c2_witness :
    goToLower (goTrimSpace "Done ") = "done" ∧
    IsOverdue "Done " "2020-01-01" (daysFromCivil 2021 1 1 * nsPerDay) = false :=
  ⟨by decide,
    c2_done_resolved_never_overdue "Done " "2020-01-01"
      (daysFromCivil 2021 1 1 * nsPerDay) (Or.inl (by decide))⟩

/-! ## Claim C4: the overdue override in ExtractIssueData -/

/-- C4 counterexample: a payload whose raw status is literally "Overdue"
yields a record with `Trending = "overdue"` whose emoji is the unknown
glyph, not the off-track glyph, and for which `IsOverdue` does not hold. -/
def c4rawOverdueIssue : JObj :=
  [("key", JValue.str "P-1"),
   ("fields", JValue.obj
     [("status", JValue.obj [("name", JValue.str "Overdue")]),
      ("summary", JValue.str "s")])]

/-- C4 counterexample theorem: the claimed implication fails on a record
built from a raw status named "Overdue". -/
theorem c4_counterexample :
    (ExtractIssueData c4rawOverdueIssue "https://srv" "" "" "" 0).Trending = "overdue" ∧
    (ExtractIssueData c4rawOverdueIssue "https://srv" "" "" "" 0).Emoji ≠ "🔴" ∧
    IsOverdue (ExtractIssueData c4rawOverdueIssue "https://srv" "" "" "" 0).StatusName
      (ExtractIssueData c4rawOverdueIssue "https://srv" "" "" "" 0).TargetEnd 0 = false := by
  decide

/-- C4 (amended): for every record produced by `ExtractIssueData`, if its
`Trending` field equals "overdue" and the normalised status name is not
itself the literal "overdue", then its `Emoji` is the off-track glyph and
`IsOverdue` held at construction time; conversely the overdue override
replaces trending and emoji whenever `IsOverdue` holds, regardless of the
raw status bucket. -/
theorem c4_overdue_override (issue : JObj)
    (serverURL parentKey parentSummary targetEndFieldId : String) (now : Int)
    (r : IssueData)
    (hr : r = ExtractIssueData issue serverURL parentKey parentSummary targetEndFieldId now) :
    (r.Trending = "overdue" → r.StatusName ≠ "overdue" →
      r.Emoji = "🔴" ∧ IsOverdue r.StatusName r.TargetEnd now = true) ∧
    (IsOverdue r.StatusName r.TargetEnd now = true →
      r.Trending = "overdue" ∧ r.Emoji = "🔴") := by
  subst hr
  simp only [ExtractIssueData]
  generalize extractStatusName issue = sn
  generalize extractTargetEnd issue targetEndFieldId = te
  cases hov : IsOverdue sn te now
  · simp only [hov, if_false, Bool.false_eq_true, false_implies, and_true]
    intro h1 h2
    unfold trendingOfStatus at h1
    split_ifs at h1 with hc1 hc2
    · simp at h1
    · simp at h1
    · exact absurd h1 h2
  · simp [hov]

/-- C4 witness: a blocked issue with a past target date; the override fires,
and the amended theorem yields the off-track glyph and the overdue flag. -/
def c4blockedIssue : JObj :=
  [("key", JValue.str "B-1"),
   ("fields", JValue.obj
     [("status", JValue.obj [("name", JValue.str "Blocked")]),
      ("summary", JValue.str "b"),
      ("customfield_1", JValue.str "2020-01-01")])]

/-- C4 witness theorem. -/
theorem c4_witness :
    (ExtractIssueData c4blockedIssue "https://srv" "" "" "customfield_1"
      (daysFromCivil 2021 1 1 * nsPerDay)).Trending = "overdue" ∧
    (ExtractIssueData c4blockedIssue "https://srv" "" "" "customfield_1"
      (daysFromCivil 2021 1 1 * nsPerDay)).StatusName ≠ "overdue" ∧
    (ExtractIssueData c4blockedIssue "https://srv" "" "" "customfield_1"
      (daysFromCivil 2021 1 1 * nsPerDay)).Emoji = "🔴" ∧
    IsOverdue
      (ExtractIssueData c4blockedIssue "https://srv" "" "" "customfield_1"
        (daysFromCivil 2021 1 1 * nsPerDay)).StatusName
      (ExtractIssueData c4blockedIssue "https://srv" "" "" "customfield_1"
        (daysFromCivil 2021 1 1 * nsPerDay)).TargetEnd
      (daysFromCivil 2021 1 1 * nsPerDay) = true := by
  refine ⟨by decide, by decide, ?_⟩
  exact (c4_overdue_override c4blockedIssue "https://srv" "" "" "customfield_1"
    (daysFromCivil 2021 1 1 * nsPerDay) _ rfl).1 (by decide) (by decide)

/-! ## Claims C5 and C6: the two date filters -/

/-- Membership in the filter-and-sort output is membership in the input
conjoined with passing the filter. -/
theorem mem_filterAndSortIssues (issues : List IssueData) (cfg : ReportConfig)
    (issue : IssueData) :
    issue ∈ filterAndSortIssues issues cfg ↔
      issue ∈ issues ∧ keepIssue cfg issue = true := by
  unfold filterAndSortIssues
  rw [List.mem_mergeSort, List.mem_filter]

/-- The string "N/A" does not parse as a date. -/
theorem parseJiraDate_NA : ParseJiraDate "N/A" = none := by decide

/-- C5: with the `since` filter set to `T` (and no comment filter), the
output keeps exactly the records of the input whose `updated` field parses
and whose parsed instant is not strictly before `T`; records with empty or
unparsable `updated` (including the `"N/A"` placeholder) are removed, and a
record parsing to exactly `T` is kept. -/
theorem c5_since_filter (issues : List IssueData) (T : Int)
    (title outputFile jqlQuery : String) (showChildren jf cf sf uf : Bool)
    (issue : IssueData) :
    issue ∈ filterAndSortIssues issues
      ⟨title, showChildren, some T, none, outputFile, jf, cf, sf, uf, jqlQuery⟩ ↔
      issue ∈ issues ∧ ∃ d, ParseJiraDate issue.Updated = some d ∧ T ≤ d := by
  rw [mem_filterAndSortIssues]
  refine and_congr_right fun _ => ?_
  show ((if issue.Updated = "" ∨ issue.Updated = "N/A" then false
         else match ParseJiraDate issue.Updated with
           | none => false
           | some updateDate => !(decide (updateDate < T))) && true) = true ↔ _
  rw [Bool.and_true]
  by_cases he : issue.Updated = "" ∨ issue.Updated = "N/A"
  · rw [if_pos he]
    have hnone : ParseJiraDate issue.Updated = none := by
      rcases he with he | he <;> rw [he]
      · rfl
      · exact parseJiraDate_NA
    simp [hnone]
  · rw [if_neg he]
    cases hp : ParseJiraDate issue.Updated with
    | none => simp [hp]
    | some d => simp [hp, not_lt]

/-- C6: with the `noCommentSince` filter set to `C` (and no `since` filter),
a record is dropped if and only if its comment timestamp is present and
parses to an instant strictly after `C`; records with no comment or an
unparsable comment timestamp are kept. -/
theorem c6_no_comment_since_filter (issues : List IssueData) (C : Int)
    (title outputFile jqlQuery : String) (showChildren jf cf sf uf : Bool)
    (issue : IssueData) :
    issue ∈ filterAndSortIssues issues
      ⟨title, showChildren, none, some C, outputFile, jf, cf, sf, uf, jqlQuery⟩ ↔
      issue ∈ issues ∧
        ¬(issue.Comment.Created ≠ "" ∧
          ∃ d, ParseJiraDate issue.Comment.Created = some d ∧ C < d) := by
  rw [mem_filterAndSortIssues]
  refine and_congr_right fun _ => ?_
  show (true &&
        (if issue.Comment.Created ≠ "" then
          match ParseJiraDate issue.Comment.Created with
          | some commentDate => !(decide (commentDate > C))
          | none => true
         else true)) = true ↔ _
  rw [Bool.true_and]
  by_cases he : issue.Comment.Created = ""
  · simp [he]
  · rw [if_pos he]
    cases hp : ParseJiraDate issue.Comment.Created with
    | none => simp [hp, he]
    | some d => simp [hp, he, not_lt]

/-! ## Claim C7: the deep-link renderer -/

/-- Every UTF-8 code unit is a byte. -/
theorem utf8Bytes_lt_256 (c : Char) : ∀ b ∈ utf8Bytes c, b < 256 := by
  intro b hb
  have hv : c.toNat < 1114112 := by
    have hval := c.valid
    rcases hval with h | ⟨h1, h2⟩ <;> (unfold Char.toNat; omega)
  unfold utf8Bytes at hb
  split_ifs at hb with h1 h2 h3
  · simp only [List.mem_singleton] at hb
    omega
  · simp only [List.mem_cons, List.not_mem_nil, or_false] at hb
    rcases hb with rfl | rfl <;> omega
  · simp only [List.mem_cons, List.not_mem_nil, or_false] at hb
    rcases hb with rfl | rfl | rfl <;> omega
  · simp only [List.mem_cons, List.not_mem_nil, or_false] at hb
    rcases hb with rfl | rfl | rfl | rfl <;> omega

/-- Every byte of a string's UTF-8 encoding is below 256. -/
theorem stringToBytes_lt_256 (s : String) (b : Nat) (hb : b ∈ stringToBytes s) :
    b < 256 := by
  unfold stringToBytes at hb
  rw [List.mem_flatMap] at hb
  obtain ⟨c, _, hc⟩ := hb
  exact utf8Bytes_lt_256 c b hc

/-- The upper-case hex digit of a nibble is a hex digit and decodes back. -/
theorem hexPair (n : Nat) (h : n < 16) :
    ishexByte (hexDigitUpper n) = true ∧ unhexByte (hexDigitUpper n) = n := by
  have hall : ∀ m : Fin 16,
      ishexByte (hexDigitUpper m.val) = true ∧ unhexByte (hexDigitUpper m.val) = m.val := by
    decide
  exact hall ⟨n, h⟩

/-- Decoding a byte that is neither `%` nor `+` copies it. -/
theorem unescape_cons_plain (b : Nat) (l : List Nat) (h37 : b ≠ 37) (h43 : b ≠ 43) :
    queryUnescapeBytes (b :: l) = (queryUnescapeBytes l).map (fun t => b :: t) := by
  rw [queryUnescapeBytes.eq_def]
  dsimp only
  rw [if_neg h37, if_neg h43]

/-- Decoding a `+` produces a space. -/
theorem unescape_cons_plus (l : List Nat) :
    queryUnescapeBytes (43 :: l) = (queryUnescapeBytes l).map (fun t => 32 :: t) := by
  rw [queryUnescapeBytes.eq_def]
  dsimp only
  rw [if_neg (by decide : ¬(43 : Nat) = 37), if_pos rfl]

/-- Decoding `%` followed by two hex digits produces their byte. -/
theorem unescape_cons_percent (x y : Nat) (l : List Nat)
    (hx : ishexByte x = true) (hy : ishexByte y = true) :
    queryUnescapeBytes (37 :: x :: y :: l) =
      (queryUnescapeBytes l).map (fun t => (unhexByte x * 16 + unhexByte y) :: t) := by
  rw [queryUnescapeBytes.eq_def]
  dsimp only
  rw [if_pos rfl]
  rw [hx, hy]
  rw [if_pos (show (true && true) = true from rfl)]

/-- Decoding inverts encoding on every byte sequence. -/
theorem unescape_escape (bs : List Nat) (h : ∀ b ∈ bs, b < 256) :
    queryUnescapeBytes (queryEscapeBytes bs) = some bs := by
  induction bs with
  | nil => rfl
  | cons b rest ih =>
    have hb : b < 256 := h b (List.mem_cons_self _ _)
    have hr := ih (fun x hx => h x (List.mem_cons_of_mem _ hx))
    unfold queryEscapeBytes at hr ⊢
    rw [List.flatMap_cons]
    by_cases h1 : queryUnreserved b = true
    · have h37 : b ≠ 37 := fun he => by subst he; exact absurd h1 (by decide)
      have h43 : b ≠ 43 := fun he => by subst he; exact absurd h1 (by decide)
      rw [if_pos h1, List.singleton_append, unescape_cons_plain b _ h37 h43, hr]
      rfl
    · rw [if_neg h1]
      by_cases h32 : b = 32
      · subst h32
        rw [if_pos rfl, List.singleton_append, unescape_cons_plus, hr]
        rfl
      · rw [if_neg h32]
        obtain ⟨hx1, hx2⟩ := hexPair (b / 16) (by omega)
        obtain ⟨hy1, hy2⟩ := hexPair (b % 16) (by omega)
        rw [List.cons_append, List.cons_append, List.cons_append, List.nil_append,
          unescape_cons_percent _ _ _ hx1 hy1, hr]
        have hdm : unhexByte (hexDigitUpper (b / 16)) * 16 + unhexByte (hexDigitUpper (b % 16)) = b := by
          rw [hx2, hy2]; omega
        show some ((unhexByte (hexDigitUpper (b / 16)) * 16 + unhexByte (hexDigitUpper (b % 16))) :: rest) =
          some (b :: rest)
        rw [hdm]

/-- Decoding inverts encoding on the UTF-8 bytes of every string. -/
theorem queryRoundtrip (s : String) :
    queryUnescapeBytes (queryEscapeBytes (stringToBytes s)) = some (stringToBytes s) :=
  unescape_escape _ (stringToBytes_lt_256 s)

/-- C7: for every filtered sequence, the deep-link renderer returns the
empty string when the sequence is empty, and otherwise a URL carrying the
query-escaped JQL `key in (k1, ..., kn) order by assignee ASC` built from
the filtered keys in client-sorted order; the escaped query parameter
decodes back to exactly that JQL. -/
theorem c7_url_report (serverURL : String) (issues : List IssueData)
    (cfg : ReportConfig) :
    (filterAndSortIssues issues cfg = [] →
      RenderURLReport serverURL issues cfg = "") ∧
    (filterAndSortIssues issues cfg ≠ [] →
      RenderURLReport serverURL issues cfg =
        goTrimSuffix serverURL "/" ++ "/issues/?" ++
          ("jql=" ++ queryEscape (urlJql ((filterAndSortIssues issues cfg).map (·.Key)))) ∧
      queryUnescapeBytes (queryEscapeBytes (stringToBytes
          (urlJql ((filterAndSortIssues issues cfg).map (·.Key))))) =
        some (stringToBytes (urlJql ((filterAndSortIssues issues cfg).map (·.Key))))) := by
  constructor
  · intro h
    simp [RenderURLReport, h]
  · intro h
    refine ⟨?_, queryRoundtrip _⟩
    rw [RenderURLReport]
    rw [if_neg (by simpa [List.length_eq_zero] using h)]

/-- Sorting a three-element list reduces to sorting its first two elements
and merging in the third. -/
theorem mergeSort_triple {α : Type} (le : α → α → Bool) (a b c : α) :
    [a, b, c].mergeSort le = ([a, b].mergeSort le).merge [c] le := by
  rw [List.mergeSort]
  simp [List.splitInTwo, List.splitAt, List.splitAt.go]

/-- Three records with keys `A-1`, `A-2`, `A-3` (summaries force the
client-sorted order). -/
def c7a : IssueData :=
  { Key := "A-1", URL := "", Summary := "a", StatusName := "Done",
    Assignee := "", Priority := "", Created := "", Updated := "", TargetEnd := "",
    ParentKey := "", ParentSummary := "", ParentURL := "", Trending := "",
    Emoji := "", Comment := ⟨"", ""⟩ }

/-- Second record of the C7 scenario. -/
def c7b : IssueData := { c7a with Key := "A-2", Summary := "b" }

/-- Third record of the C7 scenario. -/
def c7c : IssueData := { c7a with Key := "A-3", Summary := "c" }

/-- Scrambled input order for the C7 scenario. -/
def c7issues : List IssueData := [c7c, c7a, c7b]

/-- Configuration for the C7 scenario (no filters). -/
def c7cfg : ReportConfig :=
  { Title := "", ShowChildren := false, Since := none, NoCommentSince := none,
    OutputFile := "", JSONOutput := false, CSVOutput := false, SlackOutput := false,
    URLOutput := true, JQLQuery := "" }

/-- C7 witness: on the three filtered keys the renderer produces exactly the
expected URL, whose query parameter decodes to the expected JQL. -/
theorem c7_witness :
    (filterAndSortIssues c7issues c7cfg).map (·.Key) = ["A-1", "A-2", "A-3"] ∧
    filterAndSortIssues c7issues c7cfg ≠ [] ∧
    RenderURLReport "https://example.com" c7issues c7cfg =
      "https://example.com/issues/?jql=key+in+%28A-1%2C+A-2%2C+A-3%29+order+by+assignee+ASC" ∧
    queryUnescapeBytes (queryEscapeBytes (stringToBytes (urlJql ["A-1", "A-2", "A-3"]))) =
      some (stringToBytes (urlJql ["A-1", "A-2", "A-3"])) := by
  have hsort : filterAndSortIssues c7issues c7cfg = [c7a, c7b, c7c] := by
    unfold filterAndSortIssues
    have hfil : c7issues.filter (keepIssue c7cfg) = [c7c, c7a, c7b] := by decide
    have e1 : issueLE c7c c7a = false := by decide
    have e2 : issueLE c7a c7b = true := by decide
    have e3 : issueLE c7c c7b = false := by decide
    rw [hfil, mergeSort_triple, mergeSort_pair, e1]
    simp only [Bool.false_eq_true, if_false]
    rw [List.cons_merge_cons, e2]
    simp only [if_true]
    rw [List.cons_merge_cons, e3]
    simp only [Bool.false_eq_true, if_false, List.merge_right]
  have h := (c7_url_report "https://example.com" c7issues c7cfg).2
    (by rw [hsort]; decide)
  have hkeys : ([c7a, c7b, c7c].map (·.Key)) = ["A-1", "A-2", "A-3"] := by decide
  refine ⟨by rw [hsort]; decide, by rw [hsort]; decide, ?_, ?_⟩
  · rw [h.1, hsort, hkeys]
    decide
  · have h2 := h.2
    rw [hsort, hkeys] at h2
    exact h2

/-! ## Claim C8: CSV escaping round-trip

`escapeCSVField` is from the source.  The reader is not part of this
repository; it is modelled from the spec below. -/

/-- Modelled from the spec: the tail of a quoted field as read by "a
compliant CSV reader" — a doubled quote denotes a literal quote, a single
quote closes the field (which must then end, since a single field is being
parsed), and any other character is literal.  The missing piece is the CSV
reader itself, which the repository does not contain. -/
def parseQuotedRest : List Char → Option (List Char)
  | [] => none
  | c :: rest =>
    if c = '"' then
      match rest with
      | [] => some []
      | c2 :: rest2 =>
        if c2 = '"' then (parseQuotedRest rest2).map (fun t => '"' :: t) else none
    else (parseQuotedRest rest).map (fun t => c :: t)

/-- Modelled from the spec: a compliant CSV reader keyed on separator `sep`
reading one complete field — a leading quote starts a quoted field, and an
unquoted field must contain no quote, separator, or newline. -/
def parseCSVField (sep : Char) (cs : List Char) : Option (List Char) :=
  match cs with
  | [] => some []
  | c :: rest =>
    if c = '"' then parseQuotedRest rest
    else if (c :: rest).contains '"' || (c :: rest).contains sep ||
        (c :: rest).contains '\n' then none
    else some (c :: rest)

/-- Reading the quote-doubled body followed by the closing quote recovers
the original characters. -/
theorem parseQuoted_replace (cs : List Char) :
    parseQuotedRest (replaceQuotesL cs ++ ['"']) = some cs := by
  induction cs with
  | nil => rfl
  | cons c rest ih =>
    by_cases hc : c = '"'
    · subst hc
      show parseQuotedRest ('"' :: '"' :: (replaceQuotesL rest ++ ['"'])) =
        some ('"' :: rest)
      rw [parseQuotedRest.eq_def]
      dsimp only
      rw [if_pos rfl, if_pos rfl, ih]
      rfl
    · have h1 : replaceQuotesL (c :: rest) = c :: replaceQuotesL rest := by
        rw [replaceQuotesL.eq_def]
        dsimp only
        rw [if_neg hc]
      rw [h1, List.cons_append, parseQuotedRest.eq_def]
      dsimp only
      rw [if_neg hc, ih]
      rfl

/-- C8: escaping a field and parsing the escaped form with the compliant
reader keyed on the separator reproduces the original exactly (stated for
every field; the claim's hypothesis — separator and quote both present — is
the first conjunct's premises); and any field containing the separator, a
newline, or a quote is wrapped in quotes with internal quotes doubled. -/
theorem c8_csv_roundtrip (s : String) :
    (s.data.contains '🐱' = true → s.data.contains '"' = true →
      parseCSVField '🐱' (escapeCSVField s).data = some s.data) ∧
    ((s.data.contains '🐱' = true ∨ s.data.contains '\n' = true ∨
        s.data.contains '"' = true) →
      escapeCSVField s = "\"" ++ (⟨replaceQuotesL s.data⟩ : String) ++ "\"") := by
  have hwrap : ∀ _ : s.data.contains '🐱' = true ∨ s.data.contains '\n' = true ∨
      s.data.contains '"' = true,
      escapeCSVField s = "\"" ++ (⟨replaceQuotesL s.data⟩ : String) ++ "\"" := by
    intro h
    unfold escapeCSVField
    rw [if_pos (by simp at h ⊢; tauto)]
  constructor
  · intro h1 h2
    rw [hwrap (Or.inl h1)]
    have hdata : ("\"" ++ (⟨replaceQuotesL s.data⟩ : String) ++ "\"").data =
        '"' :: (replaceQuotesL s.data ++ ['"']) := by
      simp
    rw [hdata, parseCSVField.eq_def]
    dsimp only
    rw [if_pos rfl]
    exact parseQuoted_replace s.data
  · exact hwrap

/-- C8 witness: the round-trip and the wrapped form on a concrete field
containing the separator glyph and a quote. -/
theorem c8_witness :
    "a🐱b\"c".data.contains '🐱' = true ∧
    "a🐱b\"c".data.contains '"' = true ∧
    parseCSVField '🐱' (escapeCSVField "a🐱b\"c").data = some "a🐱b\"c".data ∧
    escapeCSVField "a🐱b\"c" = "\"a🐱b\"\"c\"" := by
  refine ⟨by decide, by decide,
    (c8_csv_roundtrip "a🐱b\"c").1 (by decide) (by decide), ?_⟩
  rw [(c8_csv_roundtrip "a🐱b\"c").2 (Or.inl (by decide))]
  decide

/-! ## Claim C10: pagination truncation -/

/-- C10: whatever the paginated responses contain, a successful
`SearchIssues` returns at most `maxResults` issues. -/
theorem c10_search_truncates (server : Nat → Nat → Option JObj) (maxResults : Nat)
    (h : 1 ≤ maxResults) (res : List JObj)
    (hres : SearchIssues server maxResults h = some res) :
    res.length ≤ maxResults := by
  unfold SearchIssues at hres
  split at hres
  · exact absurd hres (by simp)
  · injection hres with hres
    rw [← hres]
    split_ifs with hlen
    · rw [List.length_take]
      omega
    · omega

/-- A server answering every page with no issues and total zero. -/
def c10server : Nat → Nat → Option JObj :=
  fun _ _ => some [("issues", JValue.arr []), ("total", JValue.num 0)]

/-- C10 witness: the theorem applied to a concrete one-page search. -/
theorem c10_witness :
    SearchIssues c10server 1 (Nat.le_refl 1) = some [] ∧
    ([] : List JObj).length ≤ 1 := by
  have he : SearchIssues c10server 1 (Nat.le_refl 1) = some [] := by
    unfold SearchIssues
    rw [searchLoop.eq_def]
    simp [c10server, getMapList, getInt]
  exact ⟨he, c10_search_truncates c10server 1 (Nat.le_refl 1) [] he⟩

end Snippets
